import Mathlib

/-!
Verification of the event-streaming core of the ethermint JSON-RPC facade:
the bounded multi-reader event stream and the subscription/demultiplexing
manager (rpc/stream/rpc.go), shallowly embedded in Lean.

External collaborators (event-feed client, log decoder, validator-account
resolver, logger) are modelled as parameters: pure result values for the
subscription calls, and an environment of functions for the per-event
collaborators.  Observable side effects (subscription requests, the
unsubscribe-all request, error logging, spawning the demux task, waiting
on the wait group) are collected in an explicit effect trace.
-/

namespace Ethermint

/-- Modelled from the spec: the generic bounded event stream of the
rpc/stream package (the file defining the Stream type with NewStream, Add
and ReadFrom is not among the provided sources).  It is a segmented ring
buffer: items live at consecutive logical positions, offset is the logical
position of the oldest retained item and is always a multiple of
segmentSize, and eviction drops the oldest whole segment while more than
capacity items are retained. -/
structure Stream (α : Type) where
  segmentSize : Nat
  capacity : Nat
  offset : Nat
  items : List α
  deriving DecidableEq, Repr

/-- Modelled from the spec: a fresh stream with the given segment size and
retained-item capacity, holding no items. -/
def NewStream (α : Type) (segmentSize capacity : Nat) : Stream α :=
  { segmentSize := segmentSize, capacity := capacity, offset := 0, items := [] }

/-- Modelled from the spec: the eviction loop run by Add.  While more than
capacity items are retained, the oldest whole segment is dropped and the
offset advances by one segment.  The fuel argument bounds the iteration
count; every instantiation has a positive segment size, so at least one
item is dropped per iteration and the pre-eviction item count is enough
fuel for the loop to reach its stopping condition. -/
def evictGo {α : Type} (segSize cap : Nat) : Nat → Nat → List α → Nat × List α
  | 0, off, items => (off, items)
  | fuel + 1, off, items =>
    if cap < items.length then
      evictGo segSize cap fuel (off + segSize) (items.drop segSize)
    else
      (off, items)

/-- Modelled from the spec: Add appends a batch of items atomically as a
contiguous run and then evicts the oldest whole segments while the
retained count exceeds capacity. -/
def Stream.Add {α : Type} (s : Stream α) (batch : List α) : Stream α :=
  let newItems := s.items ++ batch
  let r := evictGo s.segmentSize s.capacity newItems.length s.offset newItems
  { s with offset := r.fst, items := r.snd }

/-- Convenience: a sequence of Add calls, one per batch, oldest first. -/
def Stream.AddAll {α : Type} (s : Stream α) (batches : List (List α)) : Stream α :=
  batches.foldl Stream.Add s

/-- Modelled from the spec: ReadFrom returns the run of items at or after
the requested position, up to limit items, together with the position to
resume from next.  A position older than the oldest retained item resumes
from the oldest retained item. -/
def Stream.ReadFrom {α : Type} (s : Stream α) (pos limit : Nat) : List α × Nat :=
  let start := max pos s.offset
  let out := (s.items.drop (start - s.offset)).take limit
  (out, start + out.length)

/-! ## Leaf types of rpc/stream/rpc.go

The payload types coming from cometbft, go-ethereum and the cosmos sdk are
opaque to this core; they are modelled by Nat or String tags. -/

/-- common.Hash, opaque here. -/
abbrev Hash := Nat

/-- ethtypes.Header (the synthesized Ethereum-style header), opaque here. -/
abbrev EthHeader := Nat

/-- A decoded ethtypes.Log entry, opaque here: it is copied into the log
stream verbatim. -/
abbrev EthLog := Nat

/-- ethtypes.Bloom, opaque here. -/
abbrev Bloom := Nat

/-- The always-empty bloom filter the source passes to the header builder
(the known placeholder gap). -/
def emptyBloom : Bloom := 0

/-- An abci event from the finalize-block result, opaque here. -/
abbrev Event := Nat

/-- Raw execution-result bytes, opaque here. -/
abbrev Bytes := Nat

/-- RPCHeader pairs the synthesized Ethereum-style header with the
canonical cometbft hash of the originating block (rpc.go). -/
structure RPCHeader where
  ethHeader : EthHeader
  hash : Hash
  deriving DecidableEq, Repr

/-- The cometbft block header as used by the demux loop: only the proposer
address is inspected directly, the rest is opaque. -/
structure TmHeader where
  proposerAddress : String
  rest : Nat
  deriving DecidableEq, Repr

/-- The cometbft block as used by the demux loop: height and header. -/
structure TmBlock where
  height : Int
  header : TmHeader
  deriving DecidableEq, Repr

/-- tmtypes.EventDataNewBlock: the block itself and the finalize-block
events, from which the base fee is derived. -/
structure EventDataNewBlock where
  block : TmBlock
  finalizeEvents : List Event
  deriving DecidableEq, Repr

/-- The transaction result inside tmtypes.EventDataTx: its height and the
Result.Data / Result.Events fields consumed by the log decoder. -/
structure TxResult where
  height : Int
  resultData : Bytes
  resultEvents : List Event
  deriving DecidableEq, Repr

/-- tmtypes.EventDataTx. -/
structure EventDataTx where
  txResult : TxResult
  deriving DecidableEq, Repr

/-- The dynamically-typed Data field of a coretypes.ResultEvent: the
demux loop type-asserts it to EventDataNewBlock or EventDataTx; any other
dynamic type is a payload type mismatch. -/
inductive EventData where
  | newBlock (d : EventDataNewBlock)
  | tx (d : EventDataTx)
  | other (tag : String)
  deriving DecidableEq, Repr

/-- True when the dynamic payload is an EventDataNewBlock. -/
def EventData.isNewBlock : EventData → Bool
  | EventData.newBlock _ => true
  | _ => false

/-- True when the dynamic payload is an EventDataTx. -/
def EventData.isTx : EventData → Bool
  | EventData.tx _ => true
  | _ => false

/-- coretypes.ResultEvent: the dynamic data payload plus the composite
event attribute map (key to list of values). -/
structure ResultEvent where
  data : EventData
  events : List (String × List String)
  deriving DecidableEq, Repr

/-- The attribute key marking an EVM-module transaction (computed in the
source from evm-module constants; only its identity matters here). -/
def evmTxHashKey : String := "ethereum_tx.ethereumTxHash"

/-- The guard of the transaction branch: does the event carry the
EVM-module transaction-hash attribute? -/
def hasEvmTxHash (ev : ResultEvent) : Bool :=
  ev.events.any (fun kv => kv.fst == evmTxHashKey)

/-- Modelled from the spec: ethermint.SafeUint64 converts the int64 block
height to uint64, failing exactly on negative values (the function is
outside the provided sources). -/
def safeUint64 (x : Int) : Except String Nat :=
  if x < 0 then Except.error ("negative height") else Except.ok x.toNat

/-! ## Constants of rpc.go -/

def streamSubscriberName : String := "ethermint-json-rpc"

def subscribBufferSize : Nat := 1024

def headerStreamSegmentSize : Nat := 128

def headerStreamCapacity : Nat := 128 * 32

def txStreamSegmentSize : Nat := 1024

def txStreamCapacity : Nat := 1024 * 32

def logStreamSegmentSize : Nat := 2048

def logStreamCapacity : Nat := 2048 * 32

/-- The new-block topic filter (built in the source from cometbft query
constants; only its identity matters here). -/
def blockEvents : String := "tm.event=NewBlock"

/-- The evm-module transaction topic filter (built in the source from
cometbft and sdk query constants; only its identity matters here). -/
def evmEvents : String := "tm.event=Tx AND message.module=evm"

/-! ## Observable effects and external collaborators -/

/-- The observable side effects of the manager operations, in program
order: subscription requests to the event feed, the unsubscribe-all
request, error logging, spawning the background demux task, waiting on
and signalling the wait group. -/
inductive Eff where
  | subscribe (query : String)
  | unsubscribeAll
  | logError (msg : String)
  | spawnDemux
  | wgWait
  | wgDone
  deriving DecidableEq, Repr

/-- Decidable equality for Except values, used only to evaluate concrete
scenarios. -/
instance {ε α : Type} [DecidableEq ε] [DecidableEq α] : DecidableEq (Except ε α) :=
  fun a b =>
    match a, b with
    | Except.error e1, Except.error e2 =>
      if h : e1 = e2 then isTrue (by rw [h]) else isFalse (by intro hc; cases hc; exact h rfl)
    | Except.error _, Except.ok _ => isFalse (by intro hc; cases hc)
    | Except.ok _, Except.error _ => isFalse (by intro hc; cases hc)
    | Except.ok v1, Except.ok v2 =>
      if h : v1 = v2 then isTrue (by rw [h]) else isFalse (by intro hc; cases hc; exact h rfl)

/-- The event-feed client as seen by the manager: the outcome of each of
the two subscription requests and of the unsubscribe-all request.  The
delivered queues themselves are modelled separately as schedules fed to
the demux loop. -/
structure EventsClient where
  subscribeBlocksRes : Except String Unit
  subscribeTxRes : Except String Unit
  unsubscribeAllRes : Except String Unit
  deriving DecidableEq, Repr

/-- The pure external collaborators used by the demux loop, one field per
external call in rpc.go: base-fee extraction from finalize events, the
consensus-address rendering of the proposer address, the validator-account
resolver (keyed by block height), bech32 account-address conversion, the
Ethereum-style header builder, the block-header hash, and the transaction
log decoder. -/
structure Env where
  baseFeeFromEvents : List Event → Option Int
  consAddressOfProposer : String → String
  validatorAccount : Int → String → Except String String
  accAddressFromBech32 : String → Except String String
  ethHeaderFromTendermint : TmHeader → Bloom → Option Int → String → EthHeader
  headerHashOf : TmHeader → Hash
  decodeTxLogsFromEvents : Bytes → List Event → Nat → Except String (List EthLog)

/-! ## Log message texts (tags only; the source attaches error values) -/

def msgTypeMismatch : String := "event data type mismatch"

def msgValidatorAccount : String := "failed to get validator account"

def msgConvertValidator : String := "failed to convert validator account"

def msgDecodeTx : String := "fail to decode evm tx response"

def msgUnsubscribe : String := "failed to unsubscribe"

/-! ## The RPCStream manager -/

/-- RPCStream: the manager state.  headerStream and logStream are nil
until the lazy subscription setup runs (modelled by Option); the
pending-tx stream is live from construction. -/
structure RPCStream where
  headerStream : Option (Stream RPCHeader)
  logStream : Option (Stream EthLog)
  pendingTxStream : Stream Hash
  deriving DecidableEq, Repr

/-- NewRPCStreams: builds the manager with the pending-tx stream already
live and no event-feed subscriptions yet. -/
def NewRPCStreams : RPCStream :=
  { headerStream := none
    logStream := none
    pendingTxStream := NewStream Hash txStreamSegmentSize txStreamCapacity }

/-- Outcome of initSubscriptions: either the updated manager state, or a
process abort (the source panics on subscription failure). -/
inductive InitOutcome where
  | ok (s : RPCStream)
  | panicked
  deriving DecidableEq, Repr

/-- initSubscriptions (rpc.go lines 86 to 111): a no-op when the header
stream already exists; otherwise creates the header and log streams,
subscribes to the new-block and evm-transaction topics, and spawns the
demux task.  A failed first subscription panics; a failed second
subscription first requests unsubscribe-all (logging any error from that
request) and then panics. -/
def RPCStream.initSubscriptions (s : RPCStream) (c : EventsClient) :
    InitOutcome × List Eff :=
  if s.headerStream.isSome then
    (InitOutcome.ok s, [])
  else
    let s1 : RPCStream :=
      { s with
        headerStream := some (NewStream RPCHeader headerStreamSegmentSize headerStreamCapacity)
        logStream := some (NewStream EthLog logStreamSegmentSize logStreamCapacity) }
    match c.subscribeBlocksRes with
    | Except.error _ => (InitOutcome.panicked, [Eff.subscribe blockEvents])
    | Except.ok _ =>
      match c.subscribeTxRes with
      | Except.error _ =>
        let effs := [Eff.subscribe blockEvents, Eff.subscribe evmEvents, Eff.unsubscribeAll]
        let effs :=
          match c.unsubscribeAllRes with
          | Except.error e => effs ++ [Eff.logError (msgUnsubscribe ++ ": " ++ e)]
          | Except.ok _ => effs
        (InitOutcome.panicked, effs)
      | Except.ok _ =>
        (InitOutcome.ok s1,
          [Eff.subscribe blockEvents, Eff.subscribe evmEvents, Eff.spawnDemux])

/-- Close (rpc.go lines 113 to 124): a no-op returning no error when the
subscriptions were never established; otherwise requests unsubscribe-all,
returning its error immediately on failure, and waiting on the wait group
before returning success. -/
def RPCStream.Close (s : RPCStream) (c : EventsClient) : Option String × List Eff :=
  if s.headerStream.isSome then
    match c.unsubscribeAllRes with
    | Except.error e => (some e, [Eff.unsubscribeAll])
    | Except.ok _ => (none, [Eff.unsubscribeAll, Eff.wgWait])
  else
    (none, [])

/-- HeaderStream (rpc.go lines 126 to 129): runs initSubscriptions and
returns the header stream.  A panic during setup propagates (modelled by
none). -/
def RPCStream.HeaderStream (s : RPCStream) (c : EventsClient) :
    Option (RPCStream × Option (Stream RPCHeader)) × List Eff :=
  match s.initSubscriptions c with
  | (InitOutcome.ok s1, effs) => (some (s1, s1.headerStream), effs)
  | (InitOutcome.panicked, effs) => (none, effs)

/-- LogStream (rpc.go lines 135 to 138): runs initSubscriptions and
returns the log stream.  A panic during setup propagates (modelled by
none). -/
def RPCStream.LogStream (s : RPCStream) (c : EventsClient) :
    Option (RPCStream × Option (Stream EthLog)) × List Eff :=
  match s.initSubscriptions c with
  | (InitOutcome.ok s1, effs) => (some (s1, s1.logStream), effs)
  | (InitOutcome.panicked, effs) => (none, effs)

/-- PendingTxStream (rpc.go lines 131 to 133): returns the pending-tx
stream without any subscription work. -/
def RPCStream.PendingTxStream (s : RPCStream) : Stream Hash :=
  s.pendingTxStream

/-- ListenPendingTx (rpc.go lines 141 to 143): appends the hash to the
pending-tx stream.  It goes through PendingTxStream, which performs no
subscription work, so the effect trace is empty. -/
def RPCStream.ListenPendingTx (s : RPCStream) (h : Hash) : RPCStream × List Eff :=
  ({ s with pendingTxStream := (s.PendingTxStream).Add [h] }, [])

/-! ## The demultiplexing loop (RPCStream.start) -/

/-- The state owned by the demux loop: the two streams it writes and one
open-flag per input queue (a closed queue is the nil channel of the
source). -/
structure DemuxState where
  headerStream : Stream RPCHeader
  logStream : Stream EthLog
  blocksOpen : Bool
  txOpen : Bool
  deriving DecidableEq, Repr

/-- The new-block branch of the demux loop (rpc.go lines 160 to 190):
type-assert the payload, derive the base fee, resolve the proposer to a
validator account, convert it from bech32, synthesize the RPCHeader with
an empty bloom and append it to the header stream.  Every failure is
logged and skips just this event. -/
def handleBlockEvent (env : Env) (st : DemuxState) (ev : ResultEvent) :
    DemuxState × List Eff :=
  match ev.data with
  | EventData.newBlock d =>
    let baseFee := env.baseFeeFromEvents d.finalizeEvents
    match env.validatorAccount d.block.height
        (env.consAddressOfProposer d.block.header.proposerAddress) with
    | Except.error e => (st, [Eff.logError (msgValidatorAccount ++ ": " ++ e)])
    | Except.ok accountAddress =>
      match env.accAddressFromBech32 accountAddress with
      | Except.error e => (st, [Eff.logError (msgConvertValidator ++ ": " ++ e)])
      | Except.ok validator =>
        let header := env.ethHeaderFromTendermint d.block.header emptyBloom baseFee validator
        ({ st with headerStream :=
            st.headerStream.Add [RPCHeader.mk header (env.headerHashOf d.block.header)] }, [])
  | _ => (st, [Eff.logError msgTypeMismatch])

/-- The transaction branch of the demux loop (rpc.go lines 192 to 219):
events lacking the EVM transaction-hash attribute are ignored before any
other work; then the payload is type-asserted, the height converted (a
conversion failure skips the event silently, with no log call in the
source), the logs decoded, and on success the whole decoded batch is
appended to the log stream in one Add call. -/
def handleTxEvent (env : Env) (st : DemuxState) (ev : ResultEvent) :
    DemuxState × List Eff :=
  if hasEvmTxHash ev then
    match ev.data with
    | EventData.tx dataTx =>
      match safeUint64 dataTx.txResult.height with
      | Except.error _ => (st, [])
      | Except.ok height =>
        match env.decodeTxLogsFromEvents dataTx.txResult.resultData
            dataTx.txResult.resultEvents height with
        | Except.error e => (st, [Eff.logError (msgDecodeTx ++ ": " ++ e)])
        | Except.ok txLogs => ({ st with logStream := st.logStream.Add txLogs }, [])
    | _ => (st, [Eff.logError msgTypeMismatch])
  else
    (st, [])

/-- One delivery observed by the select of the demux loop: an event on
one of the two queues, or the closure of one of them. -/
inductive QueueMsg where
  | blockEv (ev : ResultEvent)
  | blockClosed
  | txEv (ev : ResultEvent)
  | txClosed
  deriving DecidableEq, Repr

/-- One iteration of the select in the demux loop: events on a closed
(nil) queue cannot be selected; a closure marks its queue closed. -/
def demuxStep (env : Env) (st : DemuxState) : QueueMsg → DemuxState × List Eff
  | QueueMsg.blockEv ev => if st.blocksOpen then handleBlockEvent env st ev else (st, [])
  | QueueMsg.blockClosed => ({ st with blocksOpen := false }, [])
  | QueueMsg.txEv ev => if st.txOpen then handleTxEvent env st ev else (st, [])
  | QueueMsg.txClosed => ({ st with txOpen := false }, [])

/-- The deferred epilogue of the demux loop (rpc.go lines 150 to 156):
signal the wait group, then request unsubscribe-all, logging any error. -/
def startExitEffs (c : EventsClient) : List Eff :=
  match c.unsubscribeAllRes with
  | Except.error e => [Eff.wgDone, Eff.unsubscribeAll, Eff.logError (msgUnsubscribe ++ ": " ++ e)]
  | Except.ok _ => [Eff.wgDone, Eff.unsubscribeAll]

/-- The demux loop of RPCStream.start (rpc.go lines 145 to 226) run over a
finite schedule of queue deliveries.  After each iteration the loop exits
when both queues have been closed, running the deferred epilogue; the
returned Bool records whether the loop terminated within the schedule. -/
def runDemux (env : Env) (c : EventsClient) : DemuxState → List QueueMsg →
    DemuxState × List Eff × Bool
  | st, [] => (st, [], false)
  | st, m :: rest =>
    let r := demuxStep env st m
    if r.fst.blocksOpen = false ∧ r.fst.txOpen = false then
      (r.fst, r.snd ++ startExitEffs c, true)
    else
      let rr := runDemux env c r.fst rest
      (rr.fst, r.snd ++ rr.snd.fst, rr.snd.snd)

/-! ## Concrete fixtures used to evaluate the model on closed inputs -/

/-- A client whose every request succeeds. -/
def okClient : EventsClient :=
  { subscribeBlocksRes := Except.ok ()
    subscribeTxRes := Except.ok ()
    unsubscribeAllRes := Except.ok () }

/-- A client whose new-block subscription request fails. -/
def failBlocksClient : EventsClient :=
  { subscribeBlocksRes := Except.error ("blocks subscription refused")
    subscribeTxRes := Except.ok ()
    unsubscribeAllRes := Except.ok () }

/-- A client whose evm-transaction subscription request fails and whose
unsubscribe-all request also fails. -/
def failTxClient : EventsClient :=
  { subscribeBlocksRes := Except.ok ()
    subscribeTxRes := Except.error ("tx subscription refused")
    unsubscribeAllRes := Except.error ("unsubscribe refused") }

/-- A client whose unsubscribe-all request fails. -/
def failUnsubClient : EventsClient :=
  { subscribeBlocksRes := Except.ok ()
    subscribeTxRes := Except.ok ()
    unsubscribeAllRes := Except.error ("unsubscribe refused") }

/-- The manager state right after a successful lazy subscription setup
starting from NewRPCStreams. -/
def initializedRPCStream : RPCStream :=
  { headerStream := some (NewStream RPCHeader headerStreamSegmentSize headerStreamCapacity)
    logStream := some (NewStream EthLog logStreamSegmentSize logStreamCapacity)
    pendingTxStream := NewStream Hash txStreamSegmentSize txStreamCapacity }

/-- An environment whose collaborators all succeed; the decoder returns
the two-log batch [7, 8]. -/
def testEnv : Env :=
  { baseFeeFromEvents := fun _ => none
    consAddressOfProposer := fun a => a
    validatorAccount := fun _ _ => Except.ok ("validator-account")
    accAddressFromBech32 := fun a => Except.ok a
    ethHeaderFromTendermint := fun h _ _ _ => h.rest
    headerHashOf := fun h => h.rest
    decodeTxLogsFromEvents := fun _ _ _ => Except.ok ([7, 8]) }

/-- testEnv with a failing validator-account resolver. -/
def failResolveEnv : Env :=
  { testEnv with validatorAccount := fun _ _ => Except.error ("resolver down") }

/-- testEnv with a failing bech32 address conversion. -/
def failBechEnv : Env :=
  { testEnv with accAddressFromBech32 := fun _ => Except.error ("bad bech32") }

/-- testEnv with a failing transaction-log decoder. -/
def failDecodeEnv : Env :=
  { testEnv with decodeTxLogsFromEvents := fun _ _ _ => Except.error ("bad result data") }

/-- testEnv with a decoder that fails for height-2 transactions and
succeeds elsewhere, used to exercise fault isolation between
consecutive events. -/
def mixedEnv : Env :=
  { testEnv with
    decodeTxLogsFromEvents := fun _ _ h =>
      if h = 2 then Except.error ("bad result data") else Except.ok ([7, 8]) }

/-- The attribute map of an EVM transaction event. -/
def evmAttrs : List (String × List String) := [(evmTxHashKey, ["0xabc"])]

/-- A well-formed EVM transaction event at height 1. -/
def goodTxEvent : ResultEvent :=
  { data := EventData.tx { txResult := { height := 1, resultData := 0, resultEvents := [] } }
    events := evmAttrs }

/-- An EVM transaction event whose height is negative, so the height
conversion fails. -/
def negHeightTxEvent : ResultEvent :=
  { data := EventData.tx { txResult := { height := -1, resultData := 0, resultEvents := [] } }
    events := evmAttrs }

/-- A well-formed EVM transaction event at height 2 (the height at which
mixedEnv fails to decode). -/
def txEventH2 : ResultEvent :=
  { data := EventData.tx { txResult := { height := 2, resultData := 0, resultEvents := [] } }
    events := evmAttrs }

/-- A transaction event that does not carry the EVM transaction-hash
attribute. -/
def nonEvmTxEvent : ResultEvent :=
  { data := EventData.tx { txResult := { height := 1, resultData := 0, resultEvents := [] } }
    events := [("message.module", ["bank"])] }

/-- An event carrying the EVM attribute but whose dynamic payload has an
unexpected type. -/
def mismatchEvent : ResultEvent :=
  { data := EventData.other ("unexpected"), events := evmAttrs }

/-- A well-formed new-block event at height 5. -/
def goodBlockEvent : ResultEvent :=
  { data := EventData.newBlock
      { block := { height := 5, header := { proposerAddress := "proposer", rest := 9 } }
        finalizeEvents := [] }
    events := [] }

/-- The demux state right after startup: fresh streams, both queues
open. -/
def demuxState0 : DemuxState :=
  { headerStream := NewStream RPCHeader headerStreamSegmentSize headerStreamCapacity
    logStream := NewStream EthLog logStreamSegmentSize logStreamCapacity
    blocksOpen := true
    txOpen := true }

/-- The retention invariant tying a stream to the full logical sequence of
items ever appended to it: the retained items are exactly the appended
items from position offset on, the offset is a whole number of segments,
and the retained count is within capacity. -/
def StreamInv {α : Type} (all : List α) (s : Stream α) : Prop :=
  0 < s.segmentSize ∧ s.segmentSize ≤ s.capacity
    ∧ s.items = all.drop s.offset
    ∧ s.offset + s.items.length = all.length
    ∧ s.segmentSize ∣ s.offset
    ∧ s.items.length ≤ s.capacity

/-! ## Helper lemmas for the bounded stream -/

/-- The eviction loop advances the offset and drops the same number of
items, the amount dropped is a whole number of segments, enough fuel
reaches the capacity bound, and with a segment no larger than the
capacity it never drops past the end. -/
theorem evictGo_spec {α : Type} (segSize cap : Nat) :
    ∀ (fuel off : Nat) (items : List α),
      ∃ d, evictGo segSize cap fuel off items = (off + d, items.drop d)
        ∧ segSize ∣ d
        ∧ (items.length ≤ fuel → 0 < segSize → (items.drop d).length ≤ cap)
        ∧ (0 < segSize → segSize ≤ cap → d ≤ items.length) := by
  intro fuel
  induction fuel with
  | zero =>
    intro off items
    refine ⟨0, by simp [evictGo], dvd_zero _, ?_, fun _ _ => Nat.zero_le _⟩
    intro hlen _
    simp only [List.drop_zero]
    omega
  | succ n ih =>
    intro off items
    by_cases h : cap < items.length
    · obtain ⟨d, hEq, hDvd, hLen, hLe⟩ := ih (off + segSize) (items.drop segSize)
      refine ⟨segSize + d, ?_, dvd_add (dvd_refl segSize) hDvd, ?_, ?_⟩
      · simp only [evictGo, if_pos h]
        rw [hEq, List.drop_drop]
        have harith : off + segSize + d = off + (segSize + d) := by omega
        rw [harith]
      · intro hlen hseg
        have h1 : (items.drop segSize).length ≤ n := by
          simp only [List.length_drop]
          omega
        have h2 := hLen h1 hseg
        rw [List.drop_drop] at h2
        exact h2
      · intro hseg hcap
        have h3 := hLe hseg hcap
        simp only [List.length_drop] at h3
        omega
    · refine ⟨0, ?_, dvd_zero _, ?_, fun _ _ => Nat.zero_le _⟩
      · simp [evictGo, h]
      · intro _ _
        simp only [List.drop_zero]
        omega

/-- The eviction loop is the identity when the item count is within
capacity. -/
theorem evictGo_noop {α : Type} (segSize cap fuel off : Nat) (items : List α)
    (h : items.length ≤ cap) :
    evictGo segSize cap fuel off items = (off, items) := by
  cases fuel with
  | zero => simp [evictGo]
  | succ n => simp [evictGo, Nat.not_lt.mpr h]

/-- Add without overflow is a plain append: no eviction, same offset. -/
theorem Stream.Add_noEvict {α : Type} (s : Stream α) (batch : List α)
    (h : s.items.length + batch.length ≤ s.capacity) :
    s.Add batch = { s with items := s.items ++ batch } := by
  have hlen : (s.items ++ batch).length ≤ s.capacity := by
    simp only [List.length_append]
    omega
  simp [Stream.Add, evictGo_noop _ _ _ _ _ hlen]

/-- A fresh stream with a positive segment size dividing into its
capacity satisfies the retention invariant for the empty history. -/
theorem StreamInv_new {α : Type} (segSize cap : Nat) (h1 : 0 < segSize) (h2 : segSize ≤ cap) :
    StreamInv [] (NewStream α segSize cap) := by
  unfold StreamInv NewStream
  exact ⟨h1, h2, rfl, rfl, dvd_zero _, Nat.zero_le _⟩

/-- Add preserves the retention invariant, extending the history by the
appended batch. -/
theorem StreamInv_Add {α : Type} (all batch : List α) (s : Stream α)
    (h : StreamInv all s) : StreamInv (all ++ batch) (s.Add batch) := by
  obtain ⟨hpos, hsc, hitems, hsum, hdvd, hcap⟩ := h
  obtain ⟨d, hEq, hDvd, hLen, hLe⟩ :=
    evictGo_spec s.segmentSize s.capacity (s.items ++ batch).length s.offset (s.items ++ batch)
  have hoff_le : s.offset ≤ all.length := by omega
  have hd_le : d ≤ (s.items ++ batch).length := hLe hpos hsc
  have hdrop : (s.items ++ batch).drop d = (all ++ batch).drop (s.offset + d) := by
    have hsplit : (all ++ batch).drop s.offset = all.drop s.offset ++ batch :=
      List.drop_append_of_le_length hoff_le
    calc (s.items ++ batch).drop d
        = ((all ++ batch).drop s.offset).drop d := by rw [hitems, hsplit]
      _ = (all ++ batch).drop (s.offset + d) := List.drop_drop _ _ _
  have hAdd : s.Add batch =
      { s with offset := s.offset + d, items := (s.items ++ batch).drop d } := by
    simp only [Stream.Add]
    rw [hEq]
  rw [hAdd]
  refine ⟨hpos, hsc, hdrop, ?_, dvd_add hdvd hDvd, ?_⟩
  · simp only [List.length_drop, List.length_append] at hd_le ⊢
    omega
  · exact hLen (Nat.le_refl _) hpos

/-- AddAll preserves the retention invariant, extending the history by
the concatenation of the batches. -/
theorem StreamInv_AddAll {α : Type} (batches : List (List α)) :
    ∀ (all : List α) (s : Stream α), StreamInv all s →
      StreamInv (all ++ batches.flatten) (s.AddAll batches) := by
  induction batches with
  | nil =>
    intro all s h
    simpa [Stream.AddAll] using h
  | cons b bs ih =>
    intro all s h
    have h2 := ih (all ++ b) (s.Add b) (StreamInv_Add all b s h)
    have hfl : all ++ (b :: bs).flatten = (all ++ b) ++ bs.flatten := by
      simp [List.append_assoc]
    have hAddAll : s.AddAll (b :: bs) = (s.Add b).AddAll bs := rfl
    rw [hfl, hAddAll]
    exact h2

/-- Add changes neither the segment size nor the capacity field. -/
theorem Stream.Add_fields {α : Type} (s : Stream α) (b : List α) :
    (s.Add b).segmentSize = s.segmentSize ∧ (s.Add b).capacity = s.capacity := by
  simp [Stream.Add]

/-- AddAll changes neither the segment size nor the capacity field. -/
theorem Stream.AddAll_fields {α : Type} (batches : List (List α)) :
    ∀ s : Stream α,
      (s.AddAll batches).segmentSize = s.segmentSize
        ∧ (s.AddAll batches).capacity = s.capacity := by
  induction batches with
  | nil =>
    intro s
    simp [Stream.AddAll]
  | cons b bs ih =>
    intro s
    have h := ih (s.Add b)
    simpa [Stream.AddAll, Stream.Add] using h

/-! ## Claim C4 -/

/-- Claim C4, counterexample: with segmentSize 2 and capacity 4, after
appending 1,2,3,4,5 one at a time the stream retains [3,4,5] — not the
most recently appended four items [2,3,4,5] — because eviction drops the
oldest whole segment, so the claim that the retained items are exactly
the most recently appended capacity items fails. -/
theorem stream_retention_counterexample :
    ((NewStream Nat 2 4).AddAll [[1], [2], [3], [4], [5]]).items = [3, 4, 5]
      ∧ ¬ ((NewStream Nat 2 4).AddAll [[1], [2], [3], [4], [5]]).items = [2, 3, 4, 5] := by
  decide

/-- Claim C4 (amended): for every bounded stream with positive segment
size no larger than the capacity and every sequence of Append calls,
after any call the stream retains at most capacity items, and the
retained items are exactly the items appended from logical position
offset on — a segment-aligned suffix of the appended sequence (eviction
drops oldest whole segments, so immediately after an overflow fewer than
capacity items may remain); in particular, for a stream with
segmentSize=2 and capacity=4, appending 1,2,3,4,5,6 one at a time leaves
exactly [3,4,5,6] retained, and a reader at position 0 resumes at
position 2, the position of item 3, receiving [3,4,5,6]. -/
theorem stream_bounded_retention (segSize cap : Nat) (h1 : 0 < segSize)
    (h2 : segSize ≤ cap) (batches : List (List Nat)) :
    ((NewStream Nat segSize cap).AddAll batches).items.length ≤ cap
      ∧ ((NewStream Nat segSize cap).AddAll batches).items
          = batches.flatten.drop ((NewStream Nat segSize cap).AddAll batches).offset
      ∧ ((NewStream Nat segSize cap).AddAll batches).offset
          + ((NewStream Nat segSize cap).AddAll batches).items.length
          = batches.flatten.length
      ∧ segSize ∣ ((NewStream Nat segSize cap).AddAll batches).offset
      ∧ ((NewStream Nat 2 4).AddAll [[1], [2], [3], [4], [5], [6]]).items = [3, 4, 5, 6]
      ∧ ((NewStream Nat 2 4).AddAll [[1], [2], [3], [4], [5], [6]]).offset = 2
      ∧ ((NewStream Nat 2 4).AddAll [[1], [2], [3], [4], [5], [6]]).ReadFrom 0 100
          = ([3, 4, 5, 6], 6) := by
  have hinv := StreamInv_AddAll batches [] (NewStream Nat segSize cap)
    (StreamInv_new segSize cap h1 h2)
  have hfields := Stream.AddAll_fields batches (NewStream Nat segSize cap)
  obtain ⟨hpos, hsc, hitems, hsum, hdvd, hcap⟩ := hinv
  obtain ⟨hseg, hcapf⟩ := hfields
  have hsegv : (NewStream Nat segSize cap).segmentSize = segSize := rfl
  have hcapv : (NewStream Nat segSize cap).capacity = cap := rfl
  rw [hseg, hsegv] at hdvd
  rw [hcapf, hcapv] at hcap
  simp only [List.nil_append] at hitems hsum
  exact ⟨hcap, hitems, hsum, hdvd, by decide, by decide, by decide⟩

/-- Claim C4 witness: the amended theorem applied at segmentSize 2 and
capacity 4 with the six single-item appends of the end-to-end scenario. -/
theorem stream_bounded_retention_witness :
    ((NewStream Nat 2 4).AddAll [[1], [2], [3], [4], [5], [6]]).items.length ≤ 4
      ∧ ((NewStream Nat 2 4).AddAll [[1], [2], [3], [4], [5], [6]]).items = [3, 4, 5, 6]
      ∧ ((NewStream Nat 2 4).AddAll [[1], [2], [3], [4], [5], [6]]).ReadFrom 0 100
          = ([3, 4, 5, 6], 6) := by
  have h := stream_bounded_retention 2 4 (by decide) (by decide) [[1], [2], [3], [4], [5], [6]]
  exact ⟨h.1, h.2.2.2.2.1, h.2.2.2.2.2.2⟩

/-! ## Helper lemmas for the demux loop -/

/-- The new-block branch never touches the log stream or the queue
flags. -/
theorem handleBlockEvent_frame (env : Env) (st : DemuxState) (ev : ResultEvent) :
    (handleBlockEvent env st ev).fst.blocksOpen = st.blocksOpen
      ∧ (handleBlockEvent env st ev).fst.txOpen = st.txOpen
      ∧ (handleBlockEvent env st ev).fst.logStream = st.logStream := by
  obtain ⟨data, evs⟩ := ev
  cases data with
  | newBlock d =>
    simp only [handleBlockEvent]
    rcases hva : env.validatorAccount d.block.height
        (env.consAddressOfProposer d.block.header.proposerAddress) with e | a
    · simp [hva]
    · rcases hbe : env.accAddressFromBech32 a with e | v
      · simp [hva, hbe]
      · simp [hva, hbe]
  | tx d => simp [handleBlockEvent]
  | other t => simp [handleBlockEvent]

/-- The transaction branch never touches the header stream or the queue
flags. -/
theorem handleTxEvent_frame (env : Env) (st : DemuxState) (ev : ResultEvent) :
    (handleTxEvent env st ev).fst.blocksOpen = st.blocksOpen
      ∧ (handleTxEvent env st ev).fst.txOpen = st.txOpen
      ∧ (handleTxEvent env st ev).fst.headerStream = st.headerStream := by
  obtain ⟨data, evs⟩ := ev
  by_cases hkey : hasEvmTxHash ⟨data, evs⟩ = true
  · cases data with
    | tx d =>
      simp only [handleTxEvent, hkey, if_true]
      rcases hh : safeUint64 d.txResult.height with e | hgt
      · simp [hh]
      · rcases hdec : env.decodeTxLogsFromEvents d.txResult.resultData
            d.txResult.resultEvents hgt with e | logs
        · simp [hh, hdec]
        · simp [hh, hdec]
    | newBlock d => simp [handleTxEvent, hkey]
    | other t => simp [handleTxEvent, hkey]
  · have hkey2 : hasEvmTxHash ⟨data, evs⟩ = false := by
      revert hkey
      cases hasEvmTxHash ⟨data, evs⟩ <;> simp
    simp [handleTxEvent, hkey2]

/-- An event delivery never changes the queue flags; only a queue
closure changes its own flag. -/
theorem demuxStep_flags (env : Env) (st : DemuxState) (m : QueueMsg) :
    ((∀ ev, m = QueueMsg.blockEv ev ∨ m = QueueMsg.txEv ev →
        (demuxStep env st m).fst.blocksOpen = st.blocksOpen
          ∧ (demuxStep env st m).fst.txOpen = st.txOpen)) := by
  intro ev h
  rcases h with h | h <;> subst h
  · by_cases hb : st.blocksOpen
    · simp only [demuxStep, if_pos hb]
      exact ⟨(handleBlockEvent_frame env st ev).1, (handleBlockEvent_frame env st ev).2.1⟩
    · simp [demuxStep, hb]
  · by_cases ht : st.txOpen
    · simp only [demuxStep, if_pos ht]
      exact ⟨(handleTxEvent_frame env st ev).1, (handleTxEvent_frame env st ev).2.1⟩
    · simp [demuxStep, ht]

/-- One unfolding of the demux loop. -/
theorem runDemux_cons (env : Env) (c : EventsClient) (st : DemuxState)
    (m : QueueMsg) (rest : List QueueMsg) :
    runDemux env c st (m :: rest)
      = (if (demuxStep env st m).fst.blocksOpen = false ∧ (demuxStep env st m).fst.txOpen = false
         then ((demuxStep env st m).fst, (demuxStep env st m).snd ++ startExitEffs c, true)
         else ((runDemux env c (demuxStep env st m).fst rest).fst,
               (demuxStep env st m).snd ++ (runDemux env c (demuxStep env st m).fst rest).snd.fst,
               (runDemux env c (demuxStep env st m).fst rest).snd.snd)) := rfl

/-- Whenever the demux loop exits, its effect trace contains the
unsubscribe-all request of the deferred epilogue. -/
theorem runDemux_exit_unsub (env : Env) (c : EventsClient) :
    ∀ (sched : List QueueMsg) (st : DemuxState),
      (runDemux env c st sched).snd.snd = true →
      Eff.unsubscribeAll ∈ (runDemux env c st sched).snd.fst := by
  intro sched
  induction sched with
  | nil =>
    intro st h
    simp [runDemux] at h
  | cons m rest ih =>
    intro st h
    by_cases hexit : (demuxStep env st m).fst.blocksOpen = false
        ∧ (demuxStep env st m).fst.txOpen = false
    · rw [runDemux_cons, if_pos hexit]
      apply List.mem_append_right
      unfold startExitEffs
      rcases hu : c.unsubscribeAllRes with e | u <;> simp
    · rw [runDemux_cons, if_neg hexit] at h ⊢
      exact List.mem_append_right _ (ih _ h)

/-- Termination of the demux loop over a schedule: starting with at least
one queue open, the loop exits within the schedule exactly when the
schedule closes every queue that was still open. -/
theorem runDemux_term_iff (env : Env) (c : EventsClient) :
    ∀ (sched : List QueueMsg) (st : DemuxState),
      (st.blocksOpen = true ∨ st.txOpen = true) →
      ((runDemux env c st sched).snd.snd = true ↔
        ((st.blocksOpen = true → QueueMsg.blockClosed ∈ sched)
          ∧ (st.txOpen = true → QueueMsg.txClosed ∈ sched))) := by
  intro sched
  induction sched with
  | nil =>
    intro st hopen
    constructor
    · intro hterm
      simp [runDemux] at hterm
    · intro hr
      rcases hopen with h | h
      · exact absurd (hr.1 h) (by simp)
      · exact absurd (hr.2 h) (by simp)
  | cons m rest ih =>
    intro st hopen
    cases m with
    | blockEv ev =>
      have hstep := demuxStep_flags env st (QueueMsg.blockEv ev) ev (Or.inl rfl)
      have hcont : ¬((demuxStep env st (QueueMsg.blockEv ev)).fst.blocksOpen = false
          ∧ (demuxStep env st (QueueMsg.blockEv ev)).fst.txOpen = false) := by
        rcases hopen with h | h
        · rw [hstep.1, h]
          simp
        · rw [hstep.2, h]
          simp
      have hopen2 : (demuxStep env st (QueueMsg.blockEv ev)).fst.blocksOpen = true
          ∨ (demuxStep env st (QueueMsg.blockEv ev)).fst.txOpen = true := by
        rcases hopen with h | h
        · exact Or.inl (hstep.1.trans h)
        · exact Or.inr (hstep.2.trans h)
      have hrec := ih (demuxStep env st (QueueMsg.blockEv ev)).fst hopen2
      rw [hstep.1, hstep.2] at hrec
      have hmem1 : (QueueMsg.blockClosed ∈ QueueMsg.blockEv ev :: rest)
          ↔ QueueMsg.blockClosed ∈ rest := by simp
      have hmem2 : (QueueMsg.txClosed ∈ QueueMsg.blockEv ev :: rest)
          ↔ QueueMsg.txClosed ∈ rest := by simp
      rw [runDemux_cons, if_neg hcont, hmem1, hmem2]
      exact hrec
    | txEv ev =>
      have hstep := demuxStep_flags env st (QueueMsg.txEv ev) ev (Or.inr rfl)
      have hcont : ¬((demuxStep env st (QueueMsg.txEv ev)).fst.blocksOpen = false
          ∧ (demuxStep env st (QueueMsg.txEv ev)).fst.txOpen = false) := by
        rcases hopen with h | h
        · rw [hstep.1, h]
          simp
        · rw [hstep.2, h]
          simp
      have hopen2 : (demuxStep env st (QueueMsg.txEv ev)).fst.blocksOpen = true
          ∨ (demuxStep env st (QueueMsg.txEv ev)).fst.txOpen = true := by
        rcases hopen with h | h
        · exact Or.inl (hstep.1.trans h)
        · exact Or.inr (hstep.2.trans h)
      have hrec := ih (demuxStep env st (QueueMsg.txEv ev)).fst hopen2
      rw [hstep.1, hstep.2] at hrec
      have hmem1 : (QueueMsg.blockClosed ∈ QueueMsg.txEv ev :: rest)
          ↔ QueueMsg.blockClosed ∈ rest := by simp
      have hmem2 : (QueueMsg.txClosed ∈ QueueMsg.txEv ev :: rest)
          ↔ QueueMsg.txClosed ∈ rest := by simp
      rw [runDemux_cons, if_neg hcont, hmem1, hmem2]
      exact hrec
    | blockClosed =>
      have hstep : demuxStep env st QueueMsg.blockClosed
          = ({ st with blocksOpen := false }, []) := rfl
      by_cases ht : st.txOpen = true
      · have hcont : ¬((demuxStep env st QueueMsg.blockClosed).fst.blocksOpen = false
            ∧ (demuxStep env st QueueMsg.blockClosed).fst.txOpen = false) := by
          rw [hstep]
          simp [ht]
        rw [runDemux_cons, if_neg hcont]
        have hrec := ih ({ st with blocksOpen := false }) (Or.inr ht)
        constructor
        · intro hterm
          have hr := hrec.mp hterm
          refine ⟨fun _ => List.mem_cons_self _ _, fun htx => List.mem_cons_of_mem _ (hr.2 htx)⟩
        · intro hr
          apply hrec.mpr
          refine ⟨fun hfalse => by simp at hfalse, fun htx => ?_⟩
          rcases List.mem_cons.mp (hr.2 htx) with heq | hmem
          · exact absurd heq (by simp)
          · exact hmem
      · have htf : st.txOpen = false := by
          revert ht
          cases st.txOpen <;> simp
        have hexit : (demuxStep env st QueueMsg.blockClosed).fst.blocksOpen = false
            ∧ (demuxStep env st QueueMsg.blockClosed).fst.txOpen = false := by
          rw [hstep]
          exact ⟨rfl, htf⟩
        rw [runDemux_cons, if_pos hexit]
        constructor
        · intro _
          refine ⟨fun _ => List.mem_cons_self _ _, fun htx => absurd htx (by rw [htf]; simp)⟩
        · intro _
          rfl
    | txClosed =>
      have hstep : demuxStep env st QueueMsg.txClosed
          = ({ st with txOpen := false }, []) := rfl
      by_cases hb : st.blocksOpen = true
      · have hcont : ¬((demuxStep env st QueueMsg.txClosed).fst.blocksOpen = false
            ∧ (demuxStep env st QueueMsg.txClosed).fst.txOpen = false) := by
          rw [hstep]
          simp [hb]
        rw [runDemux_cons, if_neg hcont]
        have hrec := ih ({ st with txOpen := false }) (Or.inl hb)
        constructor
        · intro hterm
          have hr := hrec.mp hterm
          refine ⟨fun hblk => List.mem_cons_of_mem _ (hr.1 hblk), fun _ => List.mem_cons_self _ _⟩
        · intro hr
          apply hrec.mpr
          refine ⟨fun hblk => ?_, fun hfalse => by simp at hfalse⟩
          rcases List.mem_cons.mp (hr.1 hblk) with heq | hmem
          · exact absurd heq (by simp)
          · exact hmem
      · have hbf : st.blocksOpen = false := by
          revert hb
          cases st.blocksOpen <;> simp
        have hexit : (demuxStep env st QueueMsg.txClosed).fst.blocksOpen = false
            ∧ (demuxStep env st QueueMsg.txClosed).fst.txOpen = false := by
          rw [hstep]
          exact ⟨hbf, rfl⟩
        rw [runDemux_cons, if_pos hexit]
        constructor
        · intro _
          refine ⟨fun hblk => absurd hblk (by rw [hbf]; simp), fun _ => List.mem_cons_self _ _⟩
        · intro _
          rfl

/-! ## Claim C1 -/

/-- Claim C1, counterexample: on an initialized manager whose
unsubscribe-all request fails, Close returns the unsubscription error
immediately, without waiting for the demultiplexing task to terminate
(no wait-group wait appears in the effect trace), so the claim that
Close waits for the demultiplexing task to fully terminate before
returning does not hold on the unsubscription-error path. -/
theorem close_counterexample :
    initializedRPCStream.Close failUnsubClient
        = (some ("unsubscribe refused"), [Eff.unsubscribeAll])
      ∧ ¬ Eff.wgWait ∈ (initializedRPCStream.Close failUnsubClient).snd := by
  decide

/-- Claim C1 (amended): Close on a manager whose header/log streams were
never accessed returns no error and performs no side effects; otherwise
it requests unsubscription from the event feed and, when that request
succeeds, waits for the demultiplexing task to fully terminate before
returning no error, while when the request fails it returns the
unsubscription error to the caller immediately, without waiting for the
demultiplexing task. -/
theorem close_behavior (s : RPCStream) (c : EventsClient) :
    (s.headerStream = none → s.Close c = (none, []))
      ∧ (s.headerStream.isSome = true → c.unsubscribeAllRes = Except.ok ()
          → s.Close c = (none, [Eff.unsubscribeAll, Eff.wgWait]))
      ∧ (∀ e, s.headerStream.isSome = true → c.unsubscribeAllRes = Except.error e
          → s.Close c = (some e, [Eff.unsubscribeAll])) := by
  refine ⟨?_, ?_, ?_⟩
  · intro h0
    have hsome : s.headerStream.isSome = false := by rw [h0]; rfl
    simp [RPCStream.Close, hsome]
  · intro hsome hu
    simp [RPCStream.Close, hsome, hu]
  · intro e hsome hu
    simp [RPCStream.Close, hsome, hu]

/-- Claim C1 witness: the amended theorem applied to a never-initialized
manager and to an initialized manager with a succeeding client. -/
theorem close_behavior_witness :
    NewRPCStreams.Close okClient = (none, [])
      ∧ initializedRPCStream.Close okClient = (none, [Eff.unsubscribeAll, Eff.wgWait]) := by
  refine ⟨(close_behavior NewRPCStreams okClient).1 rfl, ?_⟩
  exact (close_behavior initializedRPCStream okClient).2.1 rfl rfl

/-! ## Claim C3 -/

/-- Claim C3: the first call to HeaderStream or LogStream triggers the
one-time subscription setup — it creates the header and log streams and
subscribes to the two event-feed topics exactly once (one subscribe
effect per topic, in one setup) — and every subsequent call to either
operation, with any client, performs no further subscription work and
returns the same stream objects created by the first call, leaving the
manager state unchanged. -/
theorem lazy_subscription_once (s : RPCStream) (c c2 : EventsClient)
    (h0 : s.headerStream = none)
    (hb : c.subscribeBlocksRes = Except.ok ())
    (ht : c.subscribeTxRes = Except.ok ()) :
    ∃ s1 : RPCStream,
      s.initSubscriptions c
          = (InitOutcome.ok s1,
             [Eff.subscribe blockEvents, Eff.subscribe evmEvents, Eff.spawnDemux])
        ∧ s1.headerStream
            = some (NewStream RPCHeader headerStreamSegmentSize headerStreamCapacity)
        ∧ s1.logStream = some (NewStream EthLog logStreamSegmentSize logStreamCapacity)
        ∧ s1.pendingTxStream = s.pendingTxStream
        ∧ s.HeaderStream c
            = (some (s1, s1.headerStream),
               [Eff.subscribe blockEvents, Eff.subscribe evmEvents, Eff.spawnDemux])
        ∧ s.LogStream c
            = (some (s1, s1.logStream),
               [Eff.subscribe blockEvents, Eff.subscribe evmEvents, Eff.spawnDemux])
        ∧ s1.initSubscriptions c2 = (InitOutcome.ok s1, [])
        ∧ s1.HeaderStream c2 = (some (s1, s1.headerStream), [])
        ∧ s1.LogStream c2 = (some (s1, s1.logStream), []) := by
  have hsome : s.headerStream.isSome = false := by rw [h0]; rfl
  refine ⟨{ s with
      headerStream := some (NewStream RPCHeader headerStreamSegmentSize headerStreamCapacity)
      logStream := some (NewStream EthLog logStreamSegmentSize logStreamCapacity) },
    ?_, rfl, rfl, rfl, ?_, ?_, ?_, ?_, ?_⟩
  · simp [RPCStream.initSubscriptions, hsome, hb, ht]
  · simp [RPCStream.HeaderStream, RPCStream.initSubscriptions, hsome, hb, ht]
  · simp [RPCStream.LogStream, RPCStream.initSubscriptions, hsome, hb, ht]
  · simp [RPCStream.initSubscriptions]
  · simp [RPCStream.HeaderStream, RPCStream.initSubscriptions]
  · simp [RPCStream.LogStream, RPCStream.initSubscriptions]

/-- Claim C3 witness: the theorem applied to a fresh manager with a
succeeding client, and a client that would fail for the subsequent call
(showing the subsequent call performs no subscription work at all). -/
theorem lazy_subscription_once_witness :
    (NewRPCStreams.initSubscriptions okClient).snd
        = [Eff.subscribe blockEvents, Eff.subscribe evmEvents, Eff.spawnDemux]
      ∧ ((NewRPCStreams.HeaderStream okClient).fst.map
          (fun p => (p.fst.initSubscriptions failBlocksClient).snd)) = some [] := by
  obtain ⟨s1, h1, hh, hl, hp, hhs, hls, h2, h3, h4⟩ :=
    lazy_subscription_once NewRPCStreams okClient failBlocksClient rfl rfl rfl
  constructor
  · rw [h1]
  · rw [hhs]
    simp [h2]

/-! ## Claim C5 -/

/-- Claim C5: an event on the transaction queue lacking the EVM-module
transaction-hash attribute is ignored entirely: the state is unchanged,
no effect is produced, and the result does not depend on the environment
at all (in particular no decoding is attempted and nothing is ever
appended to the log stream for that event). -/
theorem non_evm_tx_ignored (env : Env) (st : DemuxState) (ev : ResultEvent)
    (h : hasEvmTxHash ev = false) :
    handleTxEvent env st ev = (st, [])
      ∧ ∀ env2 : Env, handleTxEvent env2 st ev = handleTxEvent env st ev := by
  constructor
  · simp [handleTxEvent, h]
  · intro env2
    simp [handleTxEvent, h]

/-- Claim C5 witness: a synthetic non-EVM transaction event is dropped
without touching the streams. -/
theorem non_evm_tx_ignored_witness :
    handleTxEvent testEnv demuxState0 nonEvmTxEvent = (demuxState0, []) :=
  (non_evm_tx_ignored testEnv demuxState0 nonEvmTxEvent (by decide)).1

/-! ## Claim C6 -/

/-- Claim C6: for a transaction event whose logs decode successfully, the
demux loop appends the entire decoded batch to the log stream in a
single atomic Add call, in decoder order; absent eviction the log stream
then holds exactly the old items followed by the whole batch, so the
logs of one transaction are contiguous and ordered. -/
theorem evm_logs_batch_append (env : Env) (st : DemuxState) (d : EventDataTx)
    (evs : List (String × List String)) (hgt : Nat) (logs : List EthLog)
    (hkey : hasEvmTxHash { data := EventData.tx d, events := evs } = true)
    (hh : safeUint64 d.txResult.height = Except.ok hgt)
    (hdec : env.decodeTxLogsFromEvents d.txResult.resultData d.txResult.resultEvents hgt
        = Except.ok logs) :
    handleTxEvent env st { data := EventData.tx d, events := evs }
        = ({ st with logStream := st.logStream.Add logs }, [])
      ∧ (st.logStream.items.length + logs.length ≤ st.logStream.capacity →
          (handleTxEvent env st { data := EventData.tx d, events := evs }).fst.logStream.items
            = st.logStream.items ++ logs) := by
  have heq : handleTxEvent env st { data := EventData.tx d, events := evs }
      = ({ st with logStream := st.logStream.Add logs }, []) := by
    simp [handleTxEvent, hkey, hh, hdec]
  refine ⟨heq, ?_⟩
  intro hcap
  rw [heq, Stream.Add_noEvict st.logStream logs hcap]

/-- Claim C6 witness: the theorem applied to a concrete decodable
transaction event; the freshly started log stream then retains exactly
the decoded batch [7, 8] in order. -/
theorem evm_logs_batch_append_witness :
    (handleTxEvent testEnv demuxState0 goodTxEvent).fst.logStream.items = [7, 8] := by
  have h := evm_logs_batch_append testEnv demuxState0
    { txResult := { height := 1, resultData := 0, resultEvents := [] } }
    evmAttrs 1 [7, 8] (by decide) rfl rfl
  exact (h.2 (by decide)).trans rfl

/-! ## Claim C8 -/

/-- Claim C8: during the one-time lazy subscription setup, failure of
either event-feed subscription request is fatal to the process: the
setup panics, and HeaderStream/LogStream propagate the panic rather than
returning an error value to their caller. -/
theorem init_subscription_failure_fatal (s : RPCStream) (c : EventsClient)
    (h0 : s.headerStream = none)
    (h : (∃ e, c.subscribeBlocksRes = Except.error e)
        ∨ (c.subscribeBlocksRes = Except.ok ()
            ∧ ∃ e, c.subscribeTxRes = Except.error e)) :
    (s.initSubscriptions c).fst = InitOutcome.panicked
      ∧ (s.HeaderStream c).fst = none
      ∧ (s.LogStream c).fst = none := by
  have hsome : s.headerStream.isSome = false := by rw [h0]; rfl
  have hfst : (s.initSubscriptions c).fst = InitOutcome.panicked := by
    rcases h with ⟨e, he⟩ | ⟨hb, e, he⟩
    · simp [RPCStream.initSubscriptions, hsome, he]
    · simp [RPCStream.initSubscriptions, hsome, hb, he]
  refine ⟨hfst, ?_, ?_⟩
  · rcases hinit : s.initSubscriptions c with ⟨out, effs⟩
    rw [hinit] at hfst
    simp only at hfst
    rw [hfst] at hinit
    simp [RPCStream.HeaderStream, hinit]
  · rcases hinit : s.initSubscriptions c with ⟨out, effs⟩
    rw [hinit] at hfst
    simp only at hfst
    rw [hfst] at hinit
    simp [RPCStream.LogStream, hinit]

/-- Claim C8 witness: the theorem applied to a fresh manager whose
new-block subscription request fails. -/
theorem init_subscription_failure_fatal_witness :
    (NewRPCStreams.initSubscriptions failBlocksClient).fst = InitOutcome.panicked
      ∧ (NewRPCStreams.HeaderStream failBlocksClient).fst = none :=
  ⟨(init_subscription_failure_fatal NewRPCStreams failBlocksClient rfl
      (Or.inl ⟨"blocks subscription refused", rfl⟩)).1,
   (init_subscription_failure_fatal NewRPCStreams failBlocksClient rfl
      (Or.inl ⟨"blocks subscription refused", rfl⟩)).2.1⟩

/-! ## Claim C9 -/

/-- Claim C9: the pending-tx stream exists and accepts writes from
construction, and ListenPendingTx appends exactly the given hash to the
pending-tx stream while leaving everything else unchanged: it produces
no subscription effects, never changes the header or log streams (so any
number of calls on a never-accessed manager leaves them
unestablished), and absent eviction the pending-tx stream grows by
exactly the given hash. -/
theorem pending_tx_ingest_frame :
    NewRPCStreams.headerStream = none
      ∧ NewRPCStreams.logStream = none
      ∧ NewRPCStreams.pendingTxStream = NewStream Hash txStreamSegmentSize txStreamCapacity
      ∧ (∀ (s : RPCStream) (h : Hash),
          (s.ListenPendingTx h).snd = []
            ∧ (s.ListenPendingTx h).fst.headerStream = s.headerStream
            ∧ (s.ListenPendingTx h).fst.logStream = s.logStream
            ∧ (s.ListenPendingTx h).fst.pendingTxStream = s.pendingTxStream.Add [h])
      ∧ (∀ (s : RPCStream) (h : Hash),
          s.pendingTxStream.items.length + 1 ≤ s.pendingTxStream.capacity →
          (s.ListenPendingTx h).fst.pendingTxStream.items = s.pendingTxStream.items ++ [h])
      ∧ (∀ (s : RPCStream) (hashes : List Hash),
          (hashes.foldl (fun t h => (t.ListenPendingTx h).fst) s).headerStream = s.headerStream
            ∧ (hashes.foldl (fun t h => (t.ListenPendingTx h).fst) s).logStream = s.logStream) := by
  refine ⟨rfl, rfl, rfl, ?_, ?_, ?_⟩
  · intro s h
    exact ⟨rfl, rfl, rfl, rfl⟩
  · intro s h hcap
    have hAdd := Stream.Add_noEvict s.pendingTxStream [h] (by simpa using hcap)
    show (s.pendingTxStream.Add [h]).items = s.pendingTxStream.items ++ [h]
    rw [hAdd]
  · intro s hashes
    induction hashes generalizing s with
    | nil => exact ⟨rfl, rfl⟩
    | cons h hs ih =>
      have step := ih ((s.ListenPendingTx h).fst)
      exact ⟨step.1, step.2⟩

/-- Claim C9 witness: one Ingest call on a fresh manager appends exactly
the given hash and leaves the header/log streams unestablished. -/
theorem pending_tx_ingest_frame_witness :
    (NewRPCStreams.ListenPendingTx 42).fst.pendingTxStream.items = [42]
      ∧ (NewRPCStreams.ListenPendingTx 42).fst.headerStream = none := by
  obtain ⟨h1, h2, h3, h4, h5, h6⟩ := pending_tx_ingest_frame
  constructor
  · exact (h5 NewRPCStreams 42 (by decide)).trans rfl
  · exact ((h4 NewRPCStreams 42).2.1).trans h1

/-! ## Claim C10 -/

/-- Claim C10: when the new-block subscription succeeds and the
EVM-transaction subscription fails, the setup requests unsubscribe-all
for its subscriber before panicking — logging any error returned by that
unsubscribe request — so the fatal failure does not leak the
already-established first subscription. -/
theorem init_partial_failure_unsubscribes (s : RPCStream) (c : EventsClient) (e : String)
    (h0 : s.headerStream = none)
    (hb : c.subscribeBlocksRes = Except.ok ())
    (ht : c.subscribeTxRes = Except.error e) :
    s.initSubscriptions c
      = (InitOutcome.panicked,
         [Eff.subscribe blockEvents, Eff.subscribe evmEvents, Eff.unsubscribeAll]
           ++ (match c.unsubscribeAllRes with
               | Except.error e2 => [Eff.logError (msgUnsubscribe ++ ": " ++ e2)]
               | Except.ok _ => [])) := by
  have hsome : s.headerStream.isSome = false := by rw [h0]; rfl
  rcases hu : c.unsubscribeAllRes with e2 | u
  · simp [RPCStream.initSubscriptions, hsome, hb, ht, hu]
  · simp [RPCStream.initSubscriptions, hsome, hb, ht, hu]

/-- Claim C10 witness: the theorem applied to a fresh manager with a
client whose transaction subscription and unsubscribe-all requests both
fail; the trace shows the unsubscribe request and the logged
unsubscribe error before the panic. -/
theorem init_partial_failure_unsubscribes_witness :
    NewRPCStreams.initSubscriptions failTxClient
      = (InitOutcome.panicked,
         [Eff.subscribe blockEvents, Eff.subscribe evmEvents, Eff.unsubscribeAll,
          Eff.logError (msgUnsubscribe ++ ": " ++ "unsubscribe refused")]) := by
  have h := init_partial_failure_unsubscribes NewRPCStreams failTxClient
    ("tx subscription refused") rfl rfl rfl
  rw [h]
  rfl

/-! ## Claim C2 -/

/-- Claim C2, counterexample: a transaction event carrying the EVM
attribute whose block height fails conversion (a negative height) is
skipped, but with an empty effect trace — no error is logged for it —
contradicting the claim that every listed transient per-event error is
logged. -/
theorem demux_transient_errors_counterexample :
    handleTxEvent testEnv demuxState0 negHeightTxEvent = (demuxState0, [])
      ∧ hasEvmTxHash negHeightTxEvent = true
      ∧ safeUint64 (-1) = Except.error ("negative height") := by
  decide

/-- Claim C2 (amended): every transient per-event error — payload type
mismatch on either queue, validator-account resolver failure, validator
address conversion failure, block-height conversion failure, log-decode
failure — causes only that event to be skipped with nothing appended to
any stream for it, and the loop continues and never exits on such an
error, so a failing event does not prevent logs from a subsequent valid
event from being appended; all of these errors are logged except the
block-height conversion failure, which is skipped silently. -/
theorem demux_transient_errors :
    (∀ (env : Env) (st : DemuxState) (ev : ResultEvent),
        ev.data.isNewBlock = false →
        handleBlockEvent env st ev = (st, [Eff.logError msgTypeMismatch]))
      ∧ (∀ (env : Env) (st : DemuxState) (d : EventDataNewBlock)
            (evs : List (String × List String)) (e : String),
          env.validatorAccount d.block.height
              (env.consAddressOfProposer d.block.header.proposerAddress) = Except.error e →
          handleBlockEvent env st { data := EventData.newBlock d, events := evs }
            = (st, [Eff.logError (msgValidatorAccount ++ ": " ++ e)]))
      ∧ (∀ (env : Env) (st : DemuxState) (d : EventDataNewBlock)
            (evs : List (String × List String)) (a e : String),
          env.validatorAccount d.block.height
              (env.consAddressOfProposer d.block.header.proposerAddress) = Except.ok a →
          env.accAddressFromBech32 a = Except.error e →
          handleBlockEvent env st { data := EventData.newBlock d, events := evs }
            = (st, [Eff.logError (msgConvertValidator ++ ": " ++ e)]))
      ∧ (∀ (env : Env) (st : DemuxState) (ev : ResultEvent),
          hasEvmTxHash ev = true → ev.data.isTx = false →
          handleTxEvent env st ev = (st, [Eff.logError msgTypeMismatch]))
      ∧ (∀ (env : Env) (st : DemuxState) (d : EventDataTx)
            (evs : List (String × List String)) (e : String),
          hasEvmTxHash { data := EventData.tx d, events := evs } = true →
          safeUint64 d.txResult.height = Except.error e →
          handleTxEvent env st { data := EventData.tx d, events := evs } = (st, []))
      ∧ (∀ (env : Env) (st : DemuxState) (d : EventDataTx)
            (evs : List (String × List String)) (hgt : Nat) (e : String),
          hasEvmTxHash { data := EventData.tx d, events := evs } = true →
          safeUint64 d.txResult.height = Except.ok hgt →
          env.decodeTxLogsFromEvents d.txResult.resultData d.txResult.resultEvents hgt
              = Except.error e →
          handleTxEvent env st { data := EventData.tx d, events := evs }
            = (st, [Eff.logError (msgDecodeTx ++ ": " ++ e)]))
      ∧ (∀ (env : Env) (st : DemuxState) (ev : ResultEvent),
          (handleBlockEvent env st ev).fst.blocksOpen = st.blocksOpen
            ∧ (handleBlockEvent env st ev).fst.txOpen = st.txOpen
            ∧ (handleTxEvent env st ev).fst.blocksOpen = st.blocksOpen
            ∧ (handleTxEvent env st ev).fst.txOpen = st.txOpen)
      ∧ (∀ (env : Env) (c : EventsClient) (st : DemuxState) (ev : ResultEvent),
          st.blocksOpen = true → st.txOpen = true →
          (runDemux env c st [QueueMsg.blockEv ev]).snd.snd = false
            ∧ (runDemux env c st [QueueMsg.txEv ev]).snd.snd = false)
      ∧ (∀ (env : Env) (st : DemuxState) (d1 d2 : EventDataTx)
            (evs1 evs2 : List (String × List String)) (e : String)
            (hgt1 hgt2 : Nat) (logs : List EthLog),
          hasEvmTxHash { data := EventData.tx d1, events := evs1 } = true →
          safeUint64 d1.txResult.height = Except.ok hgt1 →
          env.decodeTxLogsFromEvents d1.txResult.resultData d1.txResult.resultEvents hgt1
              = Except.error e →
          hasEvmTxHash { data := EventData.tx d2, events := evs2 } = true →
          safeUint64 d2.txResult.height = Except.ok hgt2 →
          env.decodeTxLogsFromEvents d2.txResult.resultData d2.txResult.resultEvents hgt2
              = Except.ok logs →
          handleTxEvent env st { data := EventData.tx d1, events := evs1 }
              = (st, [Eff.logError (msgDecodeTx ++ ": " ++ e)])
            ∧ handleTxEvent env
                (handleTxEvent env st { data := EventData.tx d1, events := evs1 }).fst
                { data := EventData.tx d2, events := evs2 }
              = ({ st with logStream := st.logStream.Add logs }, [])) := by
  refine ⟨?_, ?_, ?_, ?_, ?_, ?_, ?_, ?_, ?_⟩
  · intro env st ev hnb
    obtain ⟨data, evs⟩ := ev
    cases data with
    | newBlock d => simp [EventData.isNewBlock] at hnb
    | tx d => simp [handleBlockEvent]
    | other t => simp [handleBlockEvent]
  · intro env st d evs e hva
    simp [handleBlockEvent, hva]
  · intro env st d evs a e hva hbe
    simp [handleBlockEvent, hva, hbe]
  · intro env st ev hkey hnt
    obtain ⟨data, evs⟩ := ev
    cases data with
    | tx d => simp [EventData.isTx] at hnt
    | newBlock d => simp [handleTxEvent, hkey]
    | other t => simp [handleTxEvent, hkey]
  · intro env st d evs e hkey hh
    simp [handleTxEvent, hkey, hh]
  · intro env st d evs hgt e hkey hh hdec
    simp [handleTxEvent, hkey, hh, hdec]
  · intro env st ev
    exact ⟨(handleBlockEvent_frame env st ev).1, (handleBlockEvent_frame env st ev).2.1,
      (handleTxEvent_frame env st ev).1, (handleTxEvent_frame env st ev).2.1⟩
  · intro env c st ev hb ht
    constructor
    · have h := runDemux_term_iff env c [QueueMsg.blockEv ev] st (Or.inl hb)
      rcases hterm : (runDemux env c st [QueueMsg.blockEv ev]).snd.snd with _ | _
      · rfl
      · have hr := h.mp hterm
        have := hr.1 hb
        simp at this
    · have h := runDemux_term_iff env c [QueueMsg.txEv ev] st (Or.inl hb)
      rcases hterm : (runDemux env c st [QueueMsg.txEv ev]).snd.snd with _ | _
      · rfl
      · have hr := h.mp hterm
        have := hr.1 hb
        simp at this
  · intro env st d1 d2 evs1 evs2 e hgt1 hgt2 logs hkey1 hh1 hdec1 hkey2 hh2 hdec2
    have hfail : handleTxEvent env st { data := EventData.tx d1, events := evs1 }
        = (st, [Eff.logError (msgDecodeTx ++ ": " ++ e)]) := by
      simp [handleTxEvent, hkey1, hh1, hdec1]
    refine ⟨hfail, ?_⟩
    rw [hfail]
    simp [handleTxEvent, hkey2, hh2, hdec2]

/-- Claim C2 witness: the amended theorem applied to concrete failing
events — a resolver failure, a bech32 conversion failure, a payload
mismatch, a negative height, a decode failure — and to the fault
isolation scenario in which a decode failure at height 2 is followed by
a successfully decoded event. -/
theorem demux_transient_errors_witness :
    handleBlockEvent failResolveEnv demuxState0 goodBlockEvent
        = (demuxState0, [Eff.logError (msgValidatorAccount ++ ": " ++ "resolver down")])
      ∧ handleBlockEvent failBechEnv demuxState0 goodBlockEvent
          = (demuxState0, [Eff.logError (msgConvertValidator ++ ": " ++ "bad bech32")])
      ∧ handleBlockEvent testEnv demuxState0 mismatchEvent
          = (demuxState0, [Eff.logError msgTypeMismatch])
      ∧ handleTxEvent testEnv demuxState0 mismatchEvent
          = (demuxState0, [Eff.logError msgTypeMismatch])
      ∧ handleTxEvent testEnv demuxState0 negHeightTxEvent = (demuxState0, [])
      ∧ handleTxEvent failDecodeEnv demuxState0 goodTxEvent
          = (demuxState0, [Eff.logError (msgDecodeTx ++ ": " ++ "bad result data")])
      ∧ handleTxEvent mixedEnv
            (handleTxEvent mixedEnv demuxState0 txEventH2).fst goodTxEvent
          = ({ demuxState0 with logStream := demuxState0.logStream.Add [7, 8] }, []) := by
  obtain ⟨h1, h2, h3, h4, h5, h6, h7, h8, h9⟩ := demux_transient_errors
  refine ⟨?_, ?_, ?_, ?_, ?_, ?_, ?_⟩
  · exact h2 failResolveEnv demuxState0
      { block := { height := 5, header := { proposerAddress := "proposer", rest := 9 } }
        finalizeEvents := [] } [] ("resolver down") rfl
  · exact h3 failBechEnv demuxState0
      { block := { height := 5, header := { proposerAddress := "proposer", rest := 9 } }
        finalizeEvents := [] } [] ("validator-account") ("bad bech32") rfl rfl
  · exact h1 testEnv demuxState0 mismatchEvent (by decide)
  · exact h4 testEnv demuxState0 mismatchEvent (by decide) (by decide)
  · exact h5 testEnv demuxState0
      { txResult := { height := -1, resultData := 0, resultEvents := [] } }
      evmAttrs ("negative height") (by decide) rfl
  · exact h6 failDecodeEnv demuxState0
      { txResult := { height := 1, resultData := 0, resultEvents := [] } }
      evmAttrs 1 ("bad result data") (by decide) rfl rfl
  · exact (h9 mixedEnv demuxState0
      { txResult := { height := 2, resultData := 0, resultEvents := [] } }
      { txResult := { height := 1, resultData := 0, resultEvents := [] } }
      evmAttrs evmAttrs ("bad result data") 2 1 [7, 8]
      (by decide) rfl rfl (by decide) rfl rfl).2

/-! ## Claim C7 -/

/-- Claim C7: the demux loop terminates only when both input queues have
been closed — starting with both queues open, the loop exits within a
schedule exactly when the schedule contains the closures of both
queues; each closure is tracked independently, merely clearing its own
flag while the loop keeps servicing the remaining open queue; and when
the loop exits, its effect trace contains the unsubscribe-all request of
its epilogue. -/
theorem demux_terminates_only_when_both_closed :
    (∀ (env : Env) (c : EventsClient) (st : DemuxState) (sched : List QueueMsg),
        st.blocksOpen = true → st.txOpen = true →
        ((runDemux env c st sched).snd.snd = true
          ↔ (QueueMsg.blockClosed ∈ sched ∧ QueueMsg.txClosed ∈ sched)))
      ∧ (∀ (env : Env) (c : EventsClient) (st : DemuxState) (rest : List QueueMsg),
          st.txOpen = true →
          runDemux env c st (QueueMsg.blockClosed :: rest)
            = runDemux env c { st with blocksOpen := false } rest)
      ∧ (∀ (env : Env) (c : EventsClient) (st : DemuxState) (rest : List QueueMsg),
          st.blocksOpen = true →
          runDemux env c st (QueueMsg.txClosed :: rest)
            = runDemux env c { st with txOpen := false } rest)
      ∧ (∀ (env : Env) (c : EventsClient) (st : DemuxState) (sched : List QueueMsg),
          (runDemux env c st sched).snd.snd = true →
          Eff.unsubscribeAll ∈ (runDemux env c st sched).snd.fst) := by
  refine ⟨?_, ?_, ?_, fun env c st sched => runDemux_exit_unsub env c sched st⟩
  · intro env c st sched hb ht
    have h := runDemux_term_iff env c sched st (Or.inl hb)
    rw [h]
    simp [hb, ht]
  · intro env c st rest ht
    have hcont : ¬((demuxStep env st QueueMsg.blockClosed).fst.blocksOpen = false
        ∧ (demuxStep env st QueueMsg.blockClosed).fst.txOpen = false) := by
      simp [demuxStep, ht]
    rw [runDemux_cons, if_neg hcont]
    rfl
  · intro env c st rest hb
    have hcont : ¬((demuxStep env st QueueMsg.txClosed).fst.blocksOpen = false
        ∧ (demuxStep env st QueueMsg.txClosed).fst.txOpen = false) := by
      simp [demuxStep, hb]
    rw [runDemux_cons, if_neg hcont]
    rfl

/-- Claim C7 witness: over the schedule closing the block queue, then
delivering one more transaction event, then closing the transaction
queue, the loop processes the transaction after the first closure,
terminates, and its trace contains the unsubscribe-all request. -/
theorem demux_terminates_only_when_both_closed_witness :
    (runDemux testEnv okClient demuxState0
        [QueueMsg.blockClosed, QueueMsg.txEv goodTxEvent, QueueMsg.txClosed]).snd.snd = true
      ∧ Eff.unsubscribeAll ∈ (runDemux testEnv okClient demuxState0
          [QueueMsg.blockClosed, QueueMsg.txEv goodTxEvent, QueueMsg.txClosed]).snd.fst
      ∧ (runDemux testEnv okClient demuxState0
          [QueueMsg.blockClosed, QueueMsg.txEv goodTxEvent]).snd.snd = false := by
  obtain ⟨h1, h2, h3, h4⟩ := demux_terminates_only_when_both_closed
  have hterm := (h1 testEnv okClient demuxState0
    [QueueMsg.blockClosed, QueueMsg.txEv goodTxEvent, QueueMsg.txClosed] rfl rfl).mpr
    (by constructor <;> decide)
  refine ⟨hterm, h4 _ _ _ _ hterm, ?_⟩
  rcases hterm2 : (runDemux testEnv okClient demuxState0
      [QueueMsg.blockClosed, QueueMsg.txEv goodTxEvent]).snd.snd with _ | _
  · rfl
  · have hr := (h1 testEnv okClient demuxState0
      [QueueMsg.blockClosed, QueueMsg.txEv goodTxEvent] rfl rfl).mp hterm2
    have : QueueMsg.txClosed ∈ [QueueMsg.blockClosed, QueueMsg.txEv goodTxEvent] := hr.2
    simp at this

end Ethermint
